import Mathlib

/-!
Verification development for the reverse-proxy-service crate.

Strings are embedded as lists of characters.  The path-rewrite strategies of
src/rewrite.rs are embedded as structures with a rewrite function; the Rust
standard library string primitives they call (str::replace, str::replacen,
str::contains, str::strip_prefix, str::strip_suffix) are implemented here with
the same left-to-right, non-overlapping match semantics.  The external http and
hyper collaborators are modelled at their boundary, following the spec.
-/

namespace RevProxy

/-- A string, embedded as its list of characters. -/
abbrev Str := List Char

/-! ## Rust string primitives used by src/rewrite.rs -/

/-- Replacement of the empty pattern: Rust match semantics match the empty
string at every character boundary, including both ends. -/
def replaceEmptyAll (new : Str) : Str → Str
  | [] => new
  | c :: rest => new ++ c :: replaceEmptyAll new rest

/-- Replacement of at most `n` leftmost occurrences of the empty pattern. -/
def replaceEmptyN (new : Str) : Str → Nat → Str
  | s, 0 => s
  | [], _ + 1 => new
  | c :: rest, n + 1 => new ++ c :: replaceEmptyN new rest n

/-- Core scan replacing every leftmost non-overlapping occurrence of the
nonempty pattern `old`.  The fuel argument only bounds the scan; it is
instantiated with the length of the string, which suffices because every step
consumes at least one character. -/
def replaceCore (old new : Str) : Nat → Str → Str
  | _, [] => []
  | 0, s => s
  | fuel + 1, c :: rest =>
    if old.isPrefixOf (c :: rest) then
      new ++ replaceCore old new fuel (rest.drop (old.length - 1))
    else
      c :: replaceCore old new fuel rest

/-- Core scan replacing the `n` leftmost non-overlapping occurrences of the
nonempty pattern `old`. -/
def replacenCore (old new : Str) : Nat → Nat → Str → Str
  | _, _, [] => []
  | _, 0, s => s
  | 0, _ + 1, s => s
  | fuel + 1, n + 1, c :: rest =>
    if old.isPrefixOf (c :: rest) then
      new ++ replacenCore old new fuel n (rest.drop (old.length - 1))
    else
      c :: replacenCore old new fuel (n + 1) rest

/-- Core scan counting the non-overlapping occurrences of the nonempty pattern
`old`, left to right. -/
def countCore (old : Str) : Nat → Str → Nat
  | _, [] => 0
  | 0, _ => 0
  | fuel + 1, c :: rest =>
    if old.isPrefixOf (c :: rest) then
      countCore old fuel (rest.drop (old.length - 1)) + 1
    else
      countCore old fuel rest

/-- Rust str::replace: replace every non-overlapping occurrence of `old` in
`s` with `new`, scanning left to right. -/
def strReplace (s old new : Str) : Str :=
  match old with
  | [] => replaceEmptyAll new s
  | _ :: _ => replaceCore old new s.length s

/-- Rust str::replacen: replace the `n` leftmost non-overlapping occurrences
of `old` in `s` with `new`. -/
def strReplacen (s old new : Str) (n : Nat) : Str :=
  match old with
  | [] => replaceEmptyN new s n
  | _ :: _ => replacenCore old new s.length n s

/-- Rust str::contains for string patterns: `old` occurs as a contiguous
substring of `s` (the empty pattern always occurs). -/
def strContains : Str → Str → Bool
  | [], old => old.isEmpty
  | c :: rest, old => old.isPrefixOf (c :: rest) || strContains rest old

/-- The number of non-overlapping occurrences of `old` in `s`, counted left to
right; the empty pattern occurs at every boundary, hence `s.length + 1`
times. -/
def countOccurrences (s old : Str) : Nat :=
  match old with
  | [] => s.length + 1
  | _ :: _ => countCore old s.length s

/-- Rust str::strip_prefix: remove `pre` from the front of `s` once if it is a
prefix, and report `none` otherwise. -/
def stripPrefixStr (pre s : Str) : Option Str :=
  if pre.isPrefixOf s then some (s.drop pre.length) else none

/-- Rust str::strip_suffix: remove `suf` from the end of `s` once if it is a
suffix, and report `none` otherwise. -/
def stripSuffixStr (suf s : Str) : Option Str :=
  if suf.isSuffixOf s then some (s.take (s.length - suf.length)) else none

/-! ## The rewrite strategies of src/rewrite.rs -/

/-- src/rewrite.rs: Identity returns the path as is. -/
structure Identity where

/-- src/rewrite.rs: Static(value) ignores the path. -/
structure Static where
  value : Str

/-- src/rewrite.rs: ReplaceAll(old, new). -/
structure ReplaceAll where
  old : Str
  new : Str

/-- src/rewrite.rs: ReplaceN(old, new, n). -/
structure ReplaceN where
  old : Str
  new : Str
  n : Nat

/-- src/rewrite.rs: TrimPrefix(p). -/
structure TrimPrefix where
  pre : Str

/-- src/rewrite.rs: TrimSuffix(s). -/
structure TrimSuffix where
  suf : Str

/-- src/rewrite.rs: AppendPrefix(p). -/
structure AppendPrefix where
  pre : Str

/-- src/rewrite.rs: AppendSuffix(s). -/
structure AppendSuffix where
  suf : Str

/-- Identity::rewrite. -/
def Identity.rewrite (_ : Identity) (path : Str) : Str := path

/-- Static::rewrite. -/
def Static.rewrite (r : Static) (_path : Str) : Str := r.value

/-- ReplaceAll::rewrite: `if path.contains(old) { path.replace(old, new) }
else { path }`. -/
def ReplaceAll.rewrite (r : ReplaceAll) (path : Str) : Str :=
  if strContains path r.old then strReplace path r.old r.new else path

/-- ReplaceN::rewrite: `if path.contains(old) { path.replacen(old, new, n) }
else { path }`. -/
def ReplaceN.rewrite (r : ReplaceN) (path : Str) : Str :=
  if strContains path r.old then strReplacen path r.old r.new r.n else path

/-- TrimPrefix::rewrite: `path.strip_prefix(pre)` with the path itself as the
fallback. -/
def TrimPrefix.rewrite (r : TrimPrefix) (path : Str) : Str :=
  match stripPrefixStr r.pre path with
  | some stripped => stripped
  | none => path

/-- TrimSuffix::rewrite: `path.strip_suffix(suf)` with the path itself as the
fallback. -/
def TrimSuffix.rewrite (r : TrimSuffix) (path : Str) : Str :=
  match stripSuffixStr r.suf path with
  | some stripped => stripped
  | none => path

/-- AppendPrefix::rewrite: unconditional concatenation in front. -/
def AppendPrefix.rewrite (r : AppendPrefix) (path : Str) : Str :=
  r.pre ++ path

/-- AppendSuffix::rewrite: unconditional concatenation at the end. -/
def AppendSuffix.rewrite (r : AppendSuffix) (path : Str) : Str :=
  path ++ r.suf

/-! ## The URI boundary (external http crate, modelled from the spec) -/

/-- Decidable equality of Except values, used to keep every embedded state
type decidable. -/
instance {ε α : Type} [DecidableEq ε] [DecidableEq α] : DecidableEq (Except ε α) := fun a b =>
  match a, b with
  | .ok x, .ok y =>
    if h : x = y then .isTrue (by rw [h])
    else .isFalse (fun hh => h (by injection hh))
  | .error x, .error y =>
    if h : x = y then .isTrue (by rw [h])
    else .isFalse (fun hh => h (by injection hh))
  | .ok _, .error _ => .isFalse (fun hh => by injection hh)
  | .error _, .ok _ => .isFalse (fun hh => by injection hh)

/-- The error type of the external http crate, kept abstract up to the
failure sites the core can hit. -/
inductive HttpError where
  | invalidUriChar
  | invalidScheme
  | invalidAuthority
  deriving DecidableEq

/-- Modelled from the spec: a character the URI grammar allows, unescaped, in
the path component; the question mark and the hash are excluded because they
delimit the query and the fragment. -/
def isPathChar (c : Char) : Bool :=
  c.isAlphanum || c = '/' || c = '-' || c = '.' || c = '_' || c = '~' ||
  c = '!' || c = '$' || c = '&' || c = '(' || c = ')' || c = '*' || c = '+' ||
  c = ',' || c = ';' || c = '=' || c = ':' || c = '@' || c = '%'

/-- Modelled from the spec: a character the URI grammar allows, unescaped, in
the query component; the query may additionally contain question marks. -/
def isQueryChar (c : Char) : Bool :=
  isPathChar c || c = '?'

/-- Modelled from the spec: scanning the query part of a path-and-query
string.  A hash ends the scan (the fragment is not part of a URI value); an
illegal character fails the parse. -/
def scanQuery : Str → Except HttpError Str
  | [] => .ok []
  | c :: rest =>
    if c = '#' then .ok []
    else if isQueryChar c then Except.map (fun q => c :: q) (scanQuery rest)
    else .error .invalidUriChar

/-- Modelled from the spec: parsing a path-and-query string, as the external
http crate does when a URI is built from it.  The first question mark starts
the query, a hash ends the parse, and an illegal character fails it. -/
def scanPathAndQuery : Str → Except HttpError (Str × Option Str)
  | [] => .ok ([], none)
  | c :: rest =>
    if c = '?' then Except.map (fun q => ([], some q)) (scanQuery rest)
    else if c = '#' then .ok ([], none)
    else if isPathChar c then
      Except.map (fun pq => (c :: pq.1, pq.2)) (scanPathAndQuery rest)
    else .error .invalidUriChar

/-- The components of a URI value of the external http crate. -/
structure Uri where
  scheme : Option Str
  authority : Option Str
  path : Str
  query : Option Str
  deriving DecidableEq

/-- Modelled from the spec: `Uri::builder().scheme(s).authority(a)
.path_and_query(pq).build()` — the scheme and authority are adopted as given
(they are already validated values) and the path-and-query string is
parsed. -/
def buildUri (scheme authority : Str) (pAndQ : Str) : Except HttpError Uri :=
  Except.map
    (fun pq =>
      { scheme := some scheme, authority := some authority,
        path := pq.1, query := pq.2 })
    (scanPathAndQuery pAndQ)

/-- An http request: every field other than the URI passes through the core
untouched. -/
structure Request (B : Type) where
  method : Str
  uri : Uri
  headers : List (Str × Str)
  version : Str
  body : B
  deriving DecidableEq

/-- The path-and-query string rewrite_uri assembles: the rewritten path, and
— when the URI has a query — a question mark and the query copied verbatim. -/
def assembledPathAndQuery (rw : Str → Str) (u : Uri) : Str :=
  match u.query with
  | some q => rw u.path ++ '?' :: q
  | none => rw u.path

/-- src/rewrite.rs, PathRewriter::rewrite_uri: apply the rule to the path
only, append `?` and the original query verbatim when a query exists, build
the new URI from the target scheme and authority, and replace the request URI
in place on success.  The rule is abstracted as its rewrite function. -/
def rewriteUri (rw : Str → Str) (req : Request B) (scheme authority : Str) :
    Except HttpError (Request B) :=
  Except.map (fun uri => { req with uri := uri })
    (buildUri scheme authority (assembledPathAndQuery rw req.uri))

/-! ## Errors, the forwarding future (src/error.rs, src/future.rs) -/

/-- The error type of the external hyper client, abstract. -/
structure HyperError where
  message : Str
  deriving DecidableEq

/-- A backend response of the external hyper client, abstract. -/
structure Response where
  status : Nat
  deriving DecidableEq

/-- src/error.rs: the two error kinds of the crate. -/
inductive Error where
  | InvalidUri (e : HttpError)
  | RequestFailed (e : HyperError)
  deriving DecidableEq

/-- The pending operation the external hyper client returns on dispatch; it
records the request that was handed to the network. -/
structure ResponseFuture (B : Type) where
  reqSent : Request B
  deriving DecidableEq

/-- The external hyper client, modelled at its boundary: a connector tag and
the dispatch capability. -/
structure Client (B : Type) where
  connector : Str
  request : Request B → ResponseFuture B

/-- Modelled from the spec: src/client.rs http_default, a client over a plain
HTTP connector. -/
def client.http_default (B : Type) : Client B :=
  { connector := "HttpConnector".toList, request := fun req => { reqSent := req } }

/-- Modelled from the spec: src/client.rs https_default, a TLS-capable
client. -/
def client.https_default (B : Type) : Client B :=
  { connector := "HttpsConnector".toList, request := fun req => { reqSent := req } }

/-- src/future.rs: the forwarding future.  `inner` is
`Result<ResponseFuture, Option<HttpError>>`: either the in-flight dispatch, or
the captured rewrite failure (consumed once polled). -/
structure RevProxyFuture (B : Type) where
  inner : Except (Option HttpError) (ResponseFuture B)
  deriving DecidableEq

/-- src/future.rs, RevProxyFuture::new: run the URI rewrite synchronously;
dispatch the rewritten request on success, capture the error otherwise. -/
def RevProxyFuture.new (cl : Client B) (req : Request B)
    (scheme authority : Str) (rw : Str → Str) : RevProxyFuture B :=
  match rewriteUri rw req scheme authority with
  | .ok req2 => { inner := .ok (cl.request req2) }
  | .error e => { inner := .error (some e) }

/-- The uninhabited outer error type (std::convert::Infallible). -/
abbrev Infallible := Empty

/-- The poll result of a future. -/
inductive Poll (α : Type) where
  | ready (value : α)
  | pending
  deriving DecidableEq

/-- One poll outcome of the in-flight network operation: still pending, or
completed with the response or the hyper error. -/
inductive NetPoll where
  | pending
  | ready (result : Except HyperError Response)
  deriving DecidableEq

/-- The output type of the forwarding future:
`Result<Result<Response, Error>, Infallible>`. -/
abbrev RevProxyOutput := Except Infallible (Except Error Response)

/-- src/future.rs, the Future impl: polling delegates to the in-flight
operation (whose outcome this step receives as `ev`), maps its failure to
`Error::RequestFailed`, and wraps everything in the infallible outer `Ok`; a
captured rewrite failure is taken and surfaced as `Error::InvalidUri`; polling
again after that hits the `unreachable!` arm, modelled as `none`. -/
def RevProxyFuture.poll (f : RevProxyFuture B) (ev : NetPoll) :
    Option (RevProxyFuture B × Poll RevProxyOutput) :=
  match f.inner with
  | .ok fut =>
    match ev with
    | .ready res =>
      some ({ inner := .ok fut }, .ready (.ok (res.mapError Error.RequestFailed)))
    | .pending => some ({ inner := .ok fut }, .pending)
  | .error (some e) =>
    some ({ inner := .error none }, .ready (.ok (.error (.InvalidUri e))))
  | .error none => none

/-! ## Target validation and the service wrappers (src/oneshot.rs, src/reused.rs) -/

/-- Modelled from the spec: syntactic validity of a scheme at the boundary of
the external http crate (TryFrom for Scheme). -/
def validScheme (s : Str) : Bool :=
  match s with
  | [] => false
  | c :: rest =>
    c.isAlpha && rest.all (fun d => d.isAlphanum || d = '+' || d = '-' || d = '.')

/-- Modelled from the spec: syntactic validity of an authority (host[:port])
at the boundary of the external http crate (TryFrom for Authority). -/
def validAuthority (s : Str) : Bool :=
  !s.isEmpty && s.all (fun c => c.isAlphanum || c = '.' || c = '-' || c = ':')

/-- Modelled from the spec: the fallible conversion of a scheme string. -/
def Scheme.tryFrom (s : Str) : Except HttpError Str :=
  if validScheme s then .ok s else .error .invalidScheme

/-- Modelled from the spec: the fallible conversion of an authority string. -/
def Authority.tryFrom (s : Str) : Except HttpError Str :=
  if validAuthority s then .ok s else .error .invalidAuthority

/-- The constant Scheme::HTTP. -/
def Scheme.HTTP : Str := "http".toList

/-- The constant Scheme::HTTPS. -/
def Scheme.HTTPS : Str := "https".toList

/-- src/oneshot.rs: the service that owns its client; the rewrite rule is
abstracted as its rewrite function. -/
structure OneshotService (B : Type) where
  client : Client B
  scheme : Str
  authority : Str
  path : Str → Str

/-- src/oneshot.rs, OneshotService::from: convert the scheme, then the
authority; fail construction on either conversion error. -/
def OneshotService.fromParts (cl : Client B) (scheme authority : Str)
    (path : Str → Str) : Except HttpError (OneshotService B) :=
  match Scheme.tryFrom scheme with
  | .error e => .error e
  | .ok s =>
    match Authority.tryFrom authority with
    | .error e => .error e
    | .ok a => .ok { client := cl, scheme := s, authority := a, path := path }

/-- src/oneshot.rs, OneshotService::http_default: default HTTP client, scheme
fixed to HTTP, authority converted fallibly. -/
def OneshotService.http_default (B : Type) (authority : Str) (path : Str → Str) :
    Except HttpError (OneshotService B) :=
  match Authority.tryFrom authority with
  | .error e => .error e
  | .ok a =>
    .ok { client := client.http_default B, scheme := Scheme.HTTP,
          authority := a, path := path }

/-- src/oneshot.rs, the Service impl: call constructs one forwarding future
from the owned client, the stored target descriptor and the stored rule. -/
def OneshotService.call (svc : OneshotService B) (req : Request B) :
    RevProxyFuture B :=
  RevProxyFuture.new svc.client req svc.scheme svc.authority svc.path

/-- src/reused.rs: the service that shares its client. -/
structure ReusedService (B : Type) where
  client : Client B
  scheme : Str
  authority : Str
  path : Str → Str

/-- src/reused.rs: the builder holding the shared client and the target
descriptor. -/
structure Builder (B : Type) where
  client : Client B
  scheme : Str
  authority : Str

/-- src/reused.rs, Builder::build: mint a service from clones of the shared
client and target, with the given rule. -/
def Builder.build (b : Builder B) (path : Str → Str) : ReusedService B :=
  { client := b.client, scheme := b.scheme, authority := b.authority, path := path }

/-- src/reused.rs, builder: convert the scheme, then the authority; fail
construction on either conversion error. -/
def builder (cl : Client B) (scheme authority : Str) :
    Except HttpError (Builder B) :=
  match Scheme.tryFrom scheme with
  | .error e => .error e
  | .ok s =>
    match Authority.tryFrom authority with
    | .error e => .error e
    | .ok a => .ok { client := cl, scheme := s, authority := a }

/-- src/reused.rs, builder_http: the default HTTP client with Scheme::HTTP. -/
def builder_http (B : Type) (authority : Str) : Except HttpError (Builder B) :=
  builder (client.http_default B) Scheme.HTTP authority

/-- src/reused.rs, builder_https: the TLS-capable default client — but, as in
the source, with Scheme::HTTP as the stored scheme. -/
def builder_https (B : Type) (authority : Str) : Except HttpError (Builder B) :=
  builder (client.https_default B) Scheme.HTTP authority

/-- src/reused.rs, ReusedService::from: convert the scheme, then the
authority; fail construction on either conversion error. -/
def ReusedService.fromParts (cl : Client B) (scheme authority : Str)
    (path : Str → Str) : Except HttpError (ReusedService B) :=
  match Scheme.tryFrom scheme with
  | .error e => .error e
  | .ok s =>
    match Authority.tryFrom authority with
    | .error e => .error e
    | .ok a => .ok { client := cl, scheme := s, authority := a, path := path }

/-- src/reused.rs, ReusedService::http_default: given shared client, scheme
fixed to HTTP, authority converted fallibly. -/
def ReusedService.http_default (cl : Client B) (authority : Str)
    (path : Str → Str) : Except HttpError (ReusedService B) :=
  match Authority.tryFrom authority with
  | .error e => .error e
  | .ok a =>
    .ok { client := cl, scheme := Scheme.HTTP, authority := a, path := path }

/-- src/reused.rs, the Service impl: call constructs one forwarding future
from the shared client, the stored target descriptor and the stored rule. -/
def ReusedService.call (svc : ReusedService B) (req : Request B) :
    RevProxyFuture B :=
  RevProxyFuture.new svc.client req svc.scheme svc.authority svc.path

/-! ## Concrete values used for instantiations -/

/-- Wellformedness of an optional query: every character is a legal query
character (in particular no hash). -/
def queryOk : Option Str → Bool
  | none => true
  | some q => q.all isQueryChar

/-- A concrete incoming request without a query. -/
def reqPlain : Request Unit :=
  { method := "GET".toList,
    uri := { scheme := some Scheme.HTTPS, authority := some "myserver.com".toList,
             path := "/p".toList, query := none },
    headers := [], version := "HTTP/1.1".toList, body := () }

/-- A concrete incoming request whose URI carries the query `q`. -/
def reqQueryQ : Request Unit :=
  { reqPlain with uri := { reqPlain.uri with query := some "q".toList } }

/-- A concrete incoming request whose URI carries the query `z`. -/
def reqQueryZ : Request Unit :=
  { reqPlain with uri := { reqPlain.uri with query := some "z".toList } }

/-- A rewrite rule that returns the path of `reqPlain` verbatim. -/
def staticSlashP : Static := { value := "/p".toList }

/-- A rewrite rule whose output contains a question mark. -/
def staticQmark : Static := { value := "/a?x".toList }

/-- A second rewrite rule whose output contains a question mark. -/
def staticQmark2 : Static := { value := "/b?y".toList }

/-- A rewrite rule whose output contains a character the URI grammar
forbids. -/
def staticSpace : Static := { value := " ".toList }

/-- The outgoing request the rebuild produces from `reqQueryQ` under
`staticQmark`: the rewritten path is split at its question mark, so the query
component becomes `x?q`. -/
def reqQueryQOut : Request Unit :=
  { reqQueryQ with
      uri := { scheme := some Scheme.HTTP, authority := some "example.com".toList,
               path := "/a".toList, query := some "x?q".toList } }

/-- The outgoing request the rebuild produces from `reqQueryZ` under
`staticQmark2`: the path component is cut off at the question mark. -/
def reqQueryZOut : Request Unit :=
  { reqQueryZ with
      uri := { scheme := some Scheme.HTTP, authority := some "example.com".toList,
               path := "/b".toList, query := some "y?z".toList } }

/-! ## Helper lemmas about the string primitives -/

/-- The empty pattern occurs in every string. -/
theorem strContains_nil_pattern (p : Str) : strContains p [] = true := by
  cases p <;> simp [strContains, List.isEmpty]

/-- A positive prefix match decomposes the scanned string: dropping the
matched tail of the pattern recovers the remainder of the scan. -/
theorem prefixOf_cons_decomp {o c : Char} {os rest : Str}
    (h : (o :: os).isPrefixOf (c :: rest) = true) :
    os ++ rest.drop os.length = rest := by
  have hp : (o :: os) <+: (c :: rest) := by simpa using h
  obtain ⟨t, ht⟩ := hp
  simp only [List.cons_append] at ht
  injection ht with h1 h2
  subst h2
  rw [List.drop_left]

/-- If the nonempty pattern does not occur, the occurrence count is zero. -/
theorem countCore_eq_zero_of_not_contains (o : Char) (os : Str) :
    ∀ (fuel : Nat) (s : Str), strContains s (o :: os) = false →
      countCore (o :: os) fuel s = 0 := by
  intro fuel
  induction fuel with
  | zero => intro s h; cases s <;> simp [countCore]
  | succ fuel ih =>
    intro s h
    cases s with
    | nil => simp [countCore]
    | cons c rest =>
      simp only [strContains, Bool.or_eq_false_iff] at h
      simp [countCore, h.1, ih rest h.2]

/-- If the nonempty pattern has no occurrence, replacement is the identity. -/
theorem replaceCore_of_countCore_zero (o : Char) (os new : Str) :
    ∀ (fuel : Nat) (s : Str), s.length ≤ fuel →
      countCore (o :: os) fuel s = 0 →
      replaceCore (o :: os) new fuel s = s := by
  intro fuel
  induction fuel with
  | zero =>
    intro s hf h
    cases s with
    | nil => simp [replaceCore]
    | cons c rest => simp at hf
  | succ fuel ih =>
    intro s hf h
    cases s with
    | nil => simp [replaceCore]
    | cons c rest =>
      by_cases hp : (o :: os).isPrefixOf (c :: rest) = true
      · simp [countCore, hp] at h
      · rw [Bool.not_eq_true] at hp
        simp only [countCore, hp, Bool.false_eq_true, if_false] at h
        simp only [replaceCore, hp, Bool.false_eq_true, if_false, List.cons.injEq,
          true_and]
        exact ih rest (by simpa using hf) h

/-- Replacing at least as many occurrences as exist equals replacing all of
them. -/
theorem replacenCore_eq_replaceCore (o : Char) (os new : Str) :
    ∀ (fuel n : Nat) (s : Str), s.length ≤ fuel →
      countCore (o :: os) fuel s ≤ n →
      replacenCore (o :: os) new fuel n s = replaceCore (o :: os) new fuel s := by
  intro fuel
  induction fuel with
  | zero =>
    intro n s hf hc
    cases s with
    | nil => cases n <;> simp [replacenCore, replaceCore]
    | cons c rest => simp at hf
  | succ fuel ih =>
    intro n s hf hc
    cases s with
    | nil => cases n <;> simp [replacenCore, replaceCore]
    | cons c rest =>
      have hrest : rest.length ≤ fuel := by simpa using hf
      cases n with
      | zero =>
        have h0 : countCore (o :: os) (fuel + 1) (c :: rest) = 0 := Nat.le_zero.mp hc
        simp only [replacenCore]
        exact (replaceCore_of_countCore_zero o os new (fuel + 1) (c :: rest) hf h0).symm
      | succ n =>
        by_cases hp : (o :: os).isPrefixOf (c :: rest) = true
        · simp only [countCore, hp, if_true] at hc
          simp only [replacenCore, replaceCore, hp, if_true]
          congr 1
          apply ih
          · simp only [List.length_drop, List.length_cons, Nat.add_sub_cancel]
            omega
          · omega
        · rw [Bool.not_eq_true] at hp
          simp only [countCore, hp, Bool.false_eq_true, if_false] at hc
          simp only [replacenCore, replaceCore, hp, Bool.false_eq_true, if_false,
            List.cons.injEq, true_and]
          exact ih (n + 1) rest hrest hc

/-- Length bookkeeping of full replacement: every counted occurrence trades
`old.length` characters for `new.length` characters. -/
theorem replaceCore_length (o : Char) (os new : Str) :
    ∀ (fuel : Nat) (s : Str), s.length ≤ fuel →
      (replaceCore (o :: os) new fuel s).length
          + countCore (o :: os) fuel s * (os.length + 1)
        = s.length + countCore (o :: os) fuel s * new.length := by
  intro fuel
  induction fuel with
  | zero =>
    intro s hf
    cases s with
    | nil => simp [replaceCore, countCore]
    | cons c rest => simp at hf
  | succ fuel ih =>
    intro s hf
    cases s with
    | nil => simp [replaceCore, countCore]
    | cons c rest =>
      have hrest : rest.length ≤ fuel := by simpa using hf
      by_cases hp : (o :: os).isPrefixOf (c :: rest) = true
      · have hdec := prefixOf_cons_decomp (o := o) (c := c) hp
        have hlen : os.length + (rest.drop os.length).length = rest.length := by
          have := congrArg List.length hdec
          simpa using this
        have hdrop : (rest.drop os.length).length ≤ fuel := by
          simp only [List.length_drop]; omega
        have hrec := ih (rest.drop os.length) hdrop
        simp only [replaceCore, countCore, hp, if_true, List.length_cons,
          Nat.add_sub_cancel, List.length_append, Nat.succ_mul]
        linarith [hrec]
      · rw [Bool.not_eq_true] at hp
        have hrec := ih rest hrest
        simp only [replaceCore, countCore, hp, Bool.false_eq_true, if_false,
          List.length_cons]
        linarith [hrec]

/-- Replacing at least `len + 1` occurrences of the empty pattern replaces
all of them. -/
theorem replaceEmptyN_of_ge (new : Str) :
    ∀ (s : Str) (n : Nat), s.length + 1 ≤ n →
      replaceEmptyN new s n = replaceEmptyAll new s := by
  intro s
  induction s with
  | nil =>
    intro n h
    cases n with
    | zero => simp at h
    | succ n => simp [replaceEmptyN, replaceEmptyAll]
  | cons c rest ih =>
    intro n h
    cases n with
    | zero => simp at h
    | succ n =>
      simp only [replaceEmptyN, replaceEmptyAll, List.append_cancel_left_eq,
        List.cons.injEq, true_and]
      exact ih n (by simpa using h)

/-! ## Helper lemmas about the URI boundary -/

/-- A wellformed query string scans to itself. -/
theorem scanQuery_all {q : Str} (h : q.all isQueryChar = true) :
    scanQuery q = .ok q := by
  induction q with
  | nil => simp [scanQuery]
  | cons c rest ih =>
    simp only [List.all_cons, Bool.and_eq_true] at h
    have hc : ¬c = '#' := by
      intro hc; subst hc; exact absurd h.1 (by decide)
    simp [scanQuery, hc, h.1, ih h.2, Except.map]

/-- A wellformed path followed by a question mark and a wellformed query
scans to exactly that path and that query. -/
theorem scanPathAndQuery_append_query {p q : Str}
    (hp : p.all isPathChar = true) (hq : q.all isQueryChar = true) :
    scanPathAndQuery (p ++ '?' :: q) = .ok (p, some q) := by
  induction p with
  | nil => simp [scanPathAndQuery, scanQuery_all hq, Except.map]
  | cons c rest ih =>
    simp only [List.all_cons, Bool.and_eq_true] at hp
    have hq1 : ¬c = '?' := by
      intro hc; subst hc; exact absurd hp.1 (by decide)
    have hh1 : ¬c = '#' := by
      intro hc; subst hc; exact absurd hp.1 (by decide)
    simp [scanPathAndQuery, hq1, hh1, hp.1, ih hp.2, Except.map]

/-- A wellformed path without a query marker scans to itself, with no
query. -/
theorem scanPathAndQuery_all_path {p : Str} (hp : p.all isPathChar = true) :
    scanPathAndQuery p = .ok (p, none) := by
  induction p with
  | nil => simp [scanPathAndQuery]
  | cons c rest ih =>
    simp only [List.all_cons, Bool.and_eq_true] at hp
    have hq1 : ¬c = '?' := by
      intro hc; subst hc; exact absurd hp.1 (by decide)
    have hh1 : ¬c = '#' := by
      intro hc; subst hc; exact absurd hp.1 (by decide)
    simp [scanPathAndQuery, hq1, hh1, hp.1, ih hp.2, Except.map]

/-- A successfully built URI adopts the given scheme and authority. -/
theorem buildUri_ok_parts {s a pq : Str} {u : Uri}
    (h : buildUri s a pq = .ok u) :
    u.scheme = some s ∧ u.authority = some a := by
  unfold buildUri at h
  cases hs : scanPathAndQuery pq with
  | error e => rw [hs] at h; simp [Except.map] at h
  | ok v =>
    rw [hs] at h
    simp only [Except.map, Except.ok.injEq] at h
    subst h
    exact ⟨rfl, rfl⟩

/-- A successful rewrite decomposes into a successful URI build whose result
replaces the request URI, everything else unchanged. -/
theorem rewriteUri_ok_decomp {B : Type} {rw : Str → Str} {req req2 : Request B}
    {s a : Str} (h : rewriteUri rw req s a = .ok req2) :
    ∃ u, buildUri s a (assembledPathAndQuery rw req.uri) = .ok u ∧
      req2 = { req with uri := u } := by
  unfold rewriteUri at h
  cases hb : buildUri s a (assembledPathAndQuery rw req.uri) with
  | error e => rw [hb] at h; simp [Except.map] at h
  | ok u =>
    rw [hb] at h
    simp only [Except.map, Except.ok.injEq] at h
    exact ⟨u, rfl, h.symm⟩

/-- Frame and target components of a successful rewrite: only the URI
changes, and it adopts the target scheme and authority. -/
theorem rewriteUri_ok_parts {B : Type} {rw : Str → Str} {req req2 : Request B}
    {s a : Str} (h : rewriteUri rw req s a = .ok req2) :
    req2.method = req.method ∧ req2.headers = req.headers ∧
    req2.body = req.body ∧ req2.version = req.version ∧
    req2.uri.scheme = some s ∧ req2.uri.authority = some a := by
  obtain ⟨u, hb, hreq⟩ := rewriteUri_ok_decomp h
  obtain ⟨hsch, hauth⟩ := buildUri_ok_parts hb
  subst hreq
  exact ⟨rfl, rfl, rfl, rfl, hsch, hauth⟩

/-- When the rewritten path and the query are wellformed, the rebuild
succeeds and keeps them exactly. -/
theorem rewriteUri_clean {B : Type} {rw : Str → Str} {req : Request B}
    {s a : Str} (hp : (rw req.uri.path).all isPathChar = true)
    (hq : queryOk req.uri.query = true) :
    rewriteUri rw req s a =
      .ok { req with uri := { scheme := some s, authority := some a,
                              path := rw req.uri.path,
                              query := req.uri.query } } := by
  unfold rewriteUri buildUri assembledPathAndQuery
  cases hqq : req.uri.query with
  | none => simp [hqq, scanPathAndQuery_all_path hp, Except.map]
  | some q =>
    rw [hqq] at hq
    simp only [queryOk] at hq
    simp [hqq, scanPathAndQuery_append_query hp hq, Except.map]

/-! ## The claims about the rewrite strategies -/

/-- Claim C5: for all strings old, new, every path p, and every n greater
than or equal to the number of non-overlapping occurrences of old in p,
ReplaceN(old, new, n).rewrite(p) equals ReplaceAll(old, new).rewrite(p): the
count clamps to the available matches instead of erroring. -/
theorem c5_replacen_clamps_to_replaceall (old new p : Str) (n : Nat)
    (h : countOccurrences p old ≤ n) :
    (ReplaceN.mk old new n).rewrite p = (ReplaceAll.mk old new).rewrite p := by
  cases old with
  | nil =>
    simp only [ReplaceN.rewrite, ReplaceAll.rewrite, strContains_nil_pattern p,
      if_true, strReplacen, strReplace]
    exact replaceEmptyN_of_ge new p n (by simpa [countOccurrences] using h)
  | cons o os =>
    by_cases hc : strContains p (o :: os) = true
    · simp only [ReplaceN.rewrite, ReplaceAll.rewrite, hc, if_true,
        strReplacen, strReplace]
      exact replacenCore_eq_replaceCore o os new p.length n p le_rfl
        (by simpa [countOccurrences] using h)
    · rw [Bool.not_eq_true] at hc
      simp [ReplaceN.rewrite, ReplaceAll.rewrite, hc]

/-- Witness for C5: clamping at a concrete input with two occurrences and a
count of seven. -/
theorem c5_replacen_clamps_to_replaceall_witness :
    (ReplaceN.mk "foo".toList "ba".toList 7).rewrite "/foo/x/foo".toList
      = (ReplaceAll.mk "foo".toList "ba".toList).rewrite "/foo/x/foo".toList :=
  c5_replacen_clamps_to_replaceall "foo".toList "ba".toList "/foo/x/foo".toList 7
    (by decide)

/-- Claim C6: for a nonempty pattern old, ReplaceAll(old, new) on a path with
k non-overlapping occurrences of old yields a string of length
len(p) + k * (len(new) - len(old)), and when k = 0 the path is returned
unchanged. -/
theorem c6_replaceall_length (old new p : Str) (h : old ≠ []) :
    (((ReplaceAll.mk old new).rewrite p).length : ℤ)
        = (p.length : ℤ)
          + (countOccurrences p old : ℤ)
            * ((new.length : ℤ) - (old.length : ℤ)) ∧
    (countOccurrences p old = 0 → (ReplaceAll.mk old new).rewrite p = p) := by
  obtain ⟨o, os, rfl⟩ : ∃ o os, old = o :: os := by
    cases old with
    | nil => exact absurd rfl h
    | cons o os => exact ⟨o, os, rfl⟩
  constructor
  · by_cases hc : strContains p (o :: os) = true
    · have hlen := replaceCore_length o os new p.length p le_rfl
      have hz := congrArg (fun k : Nat => (k : ℤ)) hlen
      push_cast at hz
      simp only [ReplaceAll.rewrite, hc, if_true, strReplace, countOccurrences,
        List.length_cons]
      push_cast
      linear_combination hz
    · rw [Bool.not_eq_true] at hc
      have h0 := countCore_eq_zero_of_not_contains o os p.length p hc
      simp [ReplaceAll.rewrite, hc, countOccurrences, h0]
  · intro hk
    by_cases hc : strContains p (o :: os) = true
    · simp only [countOccurrences] at hk
      have hid := replaceCore_of_countCore_zero o os new p.length p le_rfl hk
      simp [ReplaceAll.rewrite, hc, strReplace, hid]
    · rw [Bool.not_eq_true] at hc
      simp [ReplaceAll.rewrite, hc]

/-- Witness for C6 at a concrete path with two occurrences. -/
theorem c6_replaceall_length_witness :
    (((ReplaceAll.mk "foo".toList "ba".toList).rewrite "/foo/xfoo".toList).length : ℤ)
        = (("/foo/xfoo".toList.length : Nat) : ℤ)
          + ((countOccurrences "/foo/xfoo".toList "foo".toList : Nat) : ℤ)
            * ((("ba".toList.length : Nat) : ℤ) - (("foo".toList.length : Nat) : ℤ)) ∧
    (countOccurrences "/foo/xfoo".toList "foo".toList = 0 →
      (ReplaceAll.mk "foo".toList "ba".toList).rewrite "/foo/xfoo".toList
        = "/foo/xfoo".toList) :=
  c6_replaceall_length "foo".toList "ba".toList "/foo/xfoo".toList (by decide)

/-- Claim C7: TrimPrefix removes exactly one occurrence of its string from
the start when present and is the identity otherwise; TrimSuffix does the
same at the end; the removal is not recursive, as the concrete instance
TrimPrefix(/foo) on /foo/foo/bar shows. -/
theorem c7_trim_single_occurrence (s p : Str) :
    (s.isPrefixOf p = true → s ++ (TrimPrefix.mk s).rewrite p = p) ∧
    (s.isPrefixOf p = false → (TrimPrefix.mk s).rewrite p = p) ∧
    (s.isSuffixOf p = true → (TrimSuffix.mk s).rewrite p ++ s = p) ∧
    (s.isSuffixOf p = false → (TrimSuffix.mk s).rewrite p = p) ∧
    (TrimPrefix.mk "/foo".toList).rewrite "/foo/foo/bar".toList
      = "/foo/bar".toList := by
  refine ⟨?_, ?_, ?_, ?_, by decide⟩
  · intro h
    obtain ⟨t, rfl⟩ : ∃ t, s ++ t = p := by
      simpa using List.isPrefixOf_iff_prefix.mp h
    simp [TrimPrefix.rewrite, stripPrefixStr, h, List.drop_left]
  · intro h
    simp [TrimPrefix.rewrite, stripPrefixStr, h]
  · intro h
    obtain ⟨t, rfl⟩ : ∃ t, t ++ s = p := by
      simpa using List.isSuffixOf_iff_suffix.mp h
    simp [TrimSuffix.rewrite, stripSuffixStr, h, List.length_append,
      Nat.add_sub_cancel, List.take_left]
  · intro h
    simp [TrimSuffix.rewrite, stripSuffixStr, h]

/-- Witness for C7: one prefix removal and one suffix removal at concrete
inputs. -/
theorem c7_trim_single_occurrence_witness :
    "/foo".toList ++ (TrimPrefix.mk "/foo".toList).rewrite "/foo/foo/bar".toList
        = "/foo/foo/bar".toList ∧
    (TrimSuffix.mk "bar".toList).rewrite "xbar".toList ++ "bar".toList
        = "xbar".toList :=
  ⟨(c7_trim_single_occurrence "/foo".toList "/foo/foo/bar".toList).1 (by decide),
   (c7_trim_single_occurrence "bar".toList "xbar".toList).2.2.1 (by decide)⟩

/-! ## The claims about the forwarding future -/

/-- Claim C1: whenever a poll of the forwarding future completes, the outer
result is the success variant, and the value inside it is one of the three
tagged outcomes — a backend response, error(RequestFailed, …), or
error(InvalidUri, …); the outer channel never fails. -/
theorem c1_outer_result_total {B : Type} (f : RevProxyFuture B) (ev : NetPoll)
    (f2 : RevProxyFuture B) (out : RevProxyOutput)
    (h : f.poll ev = some (f2, .ready out)) :
    (∃ r, out = .ok (.ok r)) ∨
    (∃ he, out = .ok (.error (.RequestFailed he))) ∨
    (∃ e, out = .ok (.error (.InvalidUri e))) := by
  cases hf : f.inner with
  | ok fut =>
    cases ev with
    | pending => simp [RevProxyFuture.poll, hf] at h
    | ready res =>
      simp only [RevProxyFuture.poll, hf, Option.some.injEq, Prod.mk.injEq,
        Poll.ready.injEq] at h
      cases res with
      | ok r => exact Or.inl ⟨r, by simp [← h.2, Except.mapError]⟩
      | error he => exact Or.inr (Or.inl ⟨he, by simp [← h.2, Except.mapError]⟩)
  | error oe =>
    cases oe with
    | some e =>
      simp only [RevProxyFuture.poll, hf, Option.some.injEq, Prod.mk.injEq,
        Poll.ready.injEq] at h
      exact Or.inr (Or.inr ⟨e, h.2.symm⟩)
    | none => simp [RevProxyFuture.poll, hf] at h

/-- Witness for C1 at the completed poll of a rewrite-failed future. -/
theorem c1_outer_result_total_witness :
    (∃ r, (Except.ok (Except.error (Error.InvalidUri HttpError.invalidUriChar)) :
        RevProxyOutput) = .ok (.ok r)) ∨
    (∃ he, (Except.ok (Except.error (Error.InvalidUri HttpError.invalidUriChar)) :
        RevProxyOutput) = .ok (.error (.RequestFailed he))) ∨
    (∃ e, (Except.ok (Except.error (Error.InvalidUri HttpError.invalidUriChar)) :
        RevProxyOutput) = .ok (.error (.InvalidUri e))) :=
  c1_outer_result_total (B := Unit)
    { inner := .error (some .invalidUriChar) } .pending { inner := .error none }
    (.ok (.error (.InvalidUri .invalidUriChar))) (by decide)

/-- Claim C2: when the URI rebuild fails, constructing the forwarding future
captures the error without invoking the client at all — the construction does
not depend on the client, the state holds no dispatched operation — and the
first poll surfaces error(InvalidUri, …). -/
theorem c2_rewrite_failure_no_dispatch {B : Type} (rw : Str → Str)
    (req : Request B) (scheme authority : Str) (e : HttpError)
    (h : rewriteUri rw req scheme authority = .error e) :
    ∀ (c1 c2 : Client B) (ev : NetPoll),
      RevProxyFuture.new c1 req scheme authority rw
          = RevProxyFuture.new c2 req scheme authority rw ∧
      (RevProxyFuture.new c1 req scheme authority rw).inner = .error (some e) ∧
      (RevProxyFuture.new c1 req scheme authority rw).poll ev
          = some ({ inner := .error none },
              .ready (.ok (.error (.InvalidUri e)))) := by
  intro c1 c2 ev
  refine ⟨?_, ?_, ?_⟩ <;> simp [RevProxyFuture.new, h, RevProxyFuture.poll]

/-- Witness for C2: a rewrite rule producing an illegal URI character makes
the rebuild fail deterministically, for any two clients. -/
theorem c2_rewrite_failure_no_dispatch_witness :
    RevProxyFuture.new (client.http_default Unit) reqPlain Scheme.HTTP
        "example.com".toList staticSpace.rewrite
      = RevProxyFuture.new (client.https_default Unit) reqPlain Scheme.HTTP
          "example.com".toList staticSpace.rewrite ∧
    (RevProxyFuture.new (client.http_default Unit) reqPlain Scheme.HTTP
        "example.com".toList staticSpace.rewrite).inner
      = .error (some .invalidUriChar) ∧
    (RevProxyFuture.new (client.http_default Unit) reqPlain Scheme.HTTP
        "example.com".toList staticSpace.rewrite).poll .pending
      = some ({ inner := .error none },
          .ready (.ok (.error (.InvalidUri .invalidUriChar)))) :=
  c2_rewrite_failure_no_dispatch staticSpace.rewrite reqPlain Scheme.HTTP
    "example.com".toList .invalidUriChar (by decide)
    (client.http_default Unit) (client.https_default Unit) .pending

/-- Claim C9: a future whose rebuild failed surfaces
error(InvalidUri, …) as Ready on its first poll, consuming the stored error;
a poll of any not-yet-consumed state never reaches the panicking arm; and the
consumed state only ever arises from a poll that returned Ready — so a caller
that stops polling at Ready never triggers the unreachable branch. -/
theorem c9_rewrite_failure_poll_protocol :
    (∀ (B : Type) (e : HttpError) (ev : NetPoll),
        RevProxyFuture.poll (B := B) { inner := .error (some e) } ev
          = some ({ inner := .error none },
              .ready (.ok (.error (.InvalidUri e))))) ∧
    (∀ (B : Type) (f : RevProxyFuture B) (ev : NetPoll),
        f.inner ≠ .error none → f.poll ev ≠ none) ∧
    (∀ (B : Type) (f f2 : RevProxyFuture B) (ev : NetPoll)
        (pr : Poll RevProxyOutput),
        f.poll ev = some (f2, pr) → f2.inner = .error none →
        f.inner = .error none ∨ ∃ out, pr = .ready out) := by
  refine ⟨fun B e ev => rfl, ?_, ?_⟩
  · intro B f ev h
    cases hf : f.inner with
    | ok fut => cases ev <;> simp [RevProxyFuture.poll, hf]
    | error oe =>
      cases oe with
      | some e => simp [RevProxyFuture.poll, hf]
      | none => exact absurd hf h
  · intro B f f2 ev pr h h2
    cases hf : f.inner with
    | ok fut =>
      cases ev with
      | pending =>
        simp only [RevProxyFuture.poll, hf, Option.some.injEq, Prod.mk.injEq] at h
        rw [← h.1] at h2
        simp at h2
      | ready res =>
        simp only [RevProxyFuture.poll, hf, Option.some.injEq, Prod.mk.injEq] at h
        exact Or.inr ⟨.ok (res.mapError Error.RequestFailed), h.2.symm⟩
    | error oe =>
      cases oe with
      | some e =>
        simp only [RevProxyFuture.poll, hf, Option.some.injEq, Prod.mk.injEq] at h
        exact Or.inr ⟨.ok (.error (.InvalidUri e)), h.2.symm⟩
      | none => exact Or.inl rfl

/-- Witness for C9: the three conjuncts at a concrete failed future, a
concrete in-flight future, and a concrete Ready-returning poll. -/
theorem c9_rewrite_failure_poll_protocol_witness :
    RevProxyFuture.poll (B := Unit) { inner := .error (some .invalidUriChar) }
        .pending
      = some ({ inner := .error none },
          .ready (.ok (.error (.InvalidUri .invalidUriChar)))) ∧
    RevProxyFuture.poll (B := Unit)
        { inner := .ok { reqSent := reqPlain } } .pending ≠ none ∧
    (({ inner := .error (some .invalidUriChar) } : RevProxyFuture Unit).inner
        = .error none ∨
      ∃ out, (Poll.ready (.ok (.error (.InvalidUri .invalidUriChar))) :
          Poll RevProxyOutput) = .ready out) :=
  ⟨c9_rewrite_failure_poll_protocol.1 Unit .invalidUriChar .pending,
   c9_rewrite_failure_poll_protocol.2.1 Unit { inner := .ok { reqSent := reqPlain } }
     .pending (by decide),
   c9_rewrite_failure_poll_protocol.2.2 Unit
     { inner := .error (some .invalidUriChar) } { inner := .error none } .pending
     (.ready (.ok (.error (.InvalidUri .invalidUriChar)))) (by decide) (by decide)⟩

/-! ## The claims about the URI rebuild -/

/-- Counterexample to C3 as stated: under the rule Static(/a?x), whose output
contains a question mark, the rebuild succeeds on a request with query q, yet
the query component of the outgoing URI is x?q, not q. -/
theorem c3_counterexample :
    rewriteUri staticQmark.rewrite reqQueryQ Scheme.HTTP "example.com".toList
        = .ok reqQueryQOut ∧
    reqQueryQOut.uri.query ≠ reqQueryQ.uri.query := by decide

/-- Claim C3, amended: the rewrite rule receives only the path (two rules
agreeing on the path rebuild identically), and whenever the rewritten path
consists of legal path characters — in particular contains no question mark
or hash — and the query consists of legal query characters, the rebuild
succeeds with the query component equal to the original query, byte for
byte. -/
theorem c3_query_preserved_amended :
    (∀ (B : Type) (rw1 rw2 : Str → Str) (req : Request B) (s a : Str),
        rw1 req.uri.path = rw2 req.uri.path →
        rewriteUri rw1 req s a = rewriteUri rw2 req s a) ∧
    (∀ (B : Type) (rw : Str → Str) (req : Request B) (s a q : Str),
        req.uri.query = some q →
        (rw req.uri.path).all isPathChar = true →
        q.all isQueryChar = true →
        ∃ req2, rewriteUri rw req s a = .ok req2 ∧ req2.uri.query = some q) := by
  constructor
  · intro B rw1 rw2 req s a h
    unfold rewriteUri assembledPathAndQuery
    rw [h]
  · intro B rw req s a q hq hp hqc
    refine ⟨_, rewriteUri_clean hp (by simp [queryOk, hq, hqc]), ?_⟩
    simpa using hq

/-- Witness for C3 amended: rule independence beyond the path, and exact
query preservation, at concrete inputs. -/
theorem c3_query_preserved_amended_witness :
    rewriteUri (Identity.rewrite Identity.mk) reqPlain Scheme.HTTP
        "example.com".toList
      = rewriteUri (Static.rewrite staticSlashP) reqPlain Scheme.HTTP
          "example.com".toList ∧
    (∃ req2, rewriteUri (Identity.rewrite Identity.mk) reqQueryQ Scheme.HTTP
        "example.com".toList = .ok req2 ∧ req2.uri.query = some "q".toList) :=
  ⟨c3_query_preserved_amended.1 Unit (Identity.rewrite Identity.mk)
      (Static.rewrite staticSlashP) reqPlain Scheme.HTTP "example.com".toList
      (by decide),
   c3_query_preserved_amended.2 Unit (Identity.rewrite Identity.mk) reqQueryQ
      Scheme.HTTP "example.com".toList "q".toList (by decide) (by decide)
      (by decide)⟩

/-- Counterexample to C4 as stated: under the rule Static(/b?y) the rebuild
succeeds, but the path component of the outgoing URI is /b, not the rule
output /b?y — the rewritten string is re-parsed, not adopted verbatim. -/
theorem c4_counterexample :
    rewriteUri staticQmark2.rewrite reqQueryZ Scheme.HTTP "example.com".toList
        = .ok reqQueryZOut ∧
    reqQueryZOut.uri.path ≠ staticQmark2.rewrite reqQueryZ.uri.path := by decide

/-- Claim C4, amended: every successful rebuild leaves method, headers, body
and version untouched and stamps the target scheme and authority on the URI;
and when the rewritten path consists of legal path characters and the query
(if any) of legal query characters, the outgoing URI additionally carries
exactly the rewritten path and the original query. -/
theorem c4_frame_amended :
    (∀ (B : Type) (rw : Str → Str) (req req2 : Request B) (s a : Str),
        rewriteUri rw req s a = .ok req2 →
        req2.method = req.method ∧ req2.headers = req.headers ∧
        req2.body = req.body ∧ req2.version = req.version ∧
        req2.uri.scheme = some s ∧ req2.uri.authority = some a) ∧
    (∀ (B : Type) (rw : Str → Str) (req : Request B) (s a : Str),
        (rw req.uri.path).all isPathChar = true →
        queryOk req.uri.query = true →
        rewriteUri rw req s a =
          .ok { req with uri := { scheme := some s, authority := some a,
                                  path := rw req.uri.path,
                                  query := req.uri.query } }) :=
  ⟨fun _ _ _ _ _ _ h => rewriteUri_ok_parts h,
   fun _ _ _ _ _ hp hq => rewriteUri_clean hp hq⟩

/-- Witness for C4 amended: the frame conditions at a successful concrete
rebuild, and the exact-component form at a wellformed concrete rebuild. -/
theorem c4_frame_amended_witness :
    (reqQueryQOut.method = reqQueryQ.method ∧
     reqQueryQOut.headers = reqQueryQ.headers ∧
     reqQueryQOut.body = reqQueryQ.body ∧
     reqQueryQOut.version = reqQueryQ.version ∧
     reqQueryQOut.uri.scheme = some Scheme.HTTP ∧
     reqQueryQOut.uri.authority = some "example.com".toList) ∧
    rewriteUri (Identity.rewrite Identity.mk) reqQueryQ Scheme.HTTP
        "example.com".toList =
      .ok { reqQueryQ with
              uri := { scheme := some Scheme.HTTP,
                       authority := some "example.com".toList,
                       path := Identity.rewrite Identity.mk reqQueryQ.uri.path,
                       query := reqQueryQ.uri.query } } :=
  ⟨c4_frame_amended.1 Unit staticQmark.rewrite reqQueryQ reqQueryQOut Scheme.HTTP
      "example.com".toList (by decide),
   c4_frame_amended.2 Unit (Identity.rewrite Identity.mk) reqQueryQ Scheme.HTTP
      "example.com".toList (by decide) (by decide)⟩

/-! ## The claims about construction and the builders -/

/-- Claim C8: each service constructor and builder constructor succeeds
exactly on a valid target descriptor — an invalid scheme or authority fails
construction and produces no instance; validation happens at construction. -/
theorem c8_construction_validates (B : Type) :
    (∀ (cl : Client B) (s a : Str) (rw : Str → Str),
        (OneshotService.fromParts cl s a rw).isOk
          = (validScheme s && validAuthority a)) ∧
    (∀ (a : Str) (rw : Str → Str),
        (OneshotService.http_default B a rw).isOk = validAuthority a) ∧
    (∀ (cl : Client B) (s a : Str) (rw : Str → Str),
        (ReusedService.fromParts cl s a rw).isOk
          = (validScheme s && validAuthority a)) ∧
    (∀ (cl : Client B) (s a : Str),
        (builder cl s a).isOk = (validScheme s && validAuthority a)) ∧
    (∀ (a : Str), (builder_http B a).isOk = validAuthority a) := by
  have hhttp : validScheme Scheme.HTTP = true := by decide
  refine ⟨?_, ?_, ?_, ?_, ?_⟩
  · intro cl s a rw
    by_cases hs : validScheme s = true
    · by_cases ha : validAuthority a = true
      · simp [OneshotService.fromParts, Scheme.tryFrom, Authority.tryFrom,
          hs, ha, Except.isOk, Except.toBool]
      · rw [Bool.not_eq_true] at ha
        simp [OneshotService.fromParts, Scheme.tryFrom, Authority.tryFrom,
          hs, ha, Except.isOk, Except.toBool]
    · rw [Bool.not_eq_true] at hs
      simp [OneshotService.fromParts, Scheme.tryFrom, hs, Except.isOk,
        Except.toBool]
  · intro a rw
    by_cases ha : validAuthority a = true
    · simp [OneshotService.http_default, Authority.tryFrom, ha, Except.isOk,
        Except.toBool]
    · rw [Bool.not_eq_true] at ha
      simp [OneshotService.http_default, Authority.tryFrom, ha, Except.isOk,
        Except.toBool]
  · intro cl s a rw
    by_cases hs : validScheme s = true
    · by_cases ha : validAuthority a = true
      · simp [ReusedService.fromParts, Scheme.tryFrom, Authority.tryFrom,
          hs, ha, Except.isOk, Except.toBool]
      · rw [Bool.not_eq_true] at ha
        simp [ReusedService.fromParts, Scheme.tryFrom, Authority.tryFrom,
          hs, ha, Except.isOk, Except.toBool]
    · rw [Bool.not_eq_true] at hs
      simp [ReusedService.fromParts, Scheme.tryFrom, hs, Except.isOk,
        Except.toBool]
  · intro cl s a
    by_cases hs : validScheme s = true
    · by_cases ha : validAuthority a = true
      · simp [builder, Scheme.tryFrom, Authority.tryFrom, hs, ha,
          Except.isOk, Except.toBool]
      · rw [Bool.not_eq_true] at ha
        simp [builder, Scheme.tryFrom, Authority.tryFrom, hs, ha,
          Except.isOk, Except.toBool]
    · rw [Bool.not_eq_true] at hs
      simp [builder, Scheme.tryFrom, hs, Except.isOk, Except.toBool]
  · intro a
    by_cases ha : validAuthority a = true
    · simp [builder_http, builder, Scheme.tryFrom, Authority.tryFrom, hhttp,
        ha, Except.isOk, Except.toBool]
    · rw [Bool.not_eq_true] at ha
      simp [builder_http, builder, Scheme.tryFrom, Authority.tryFrom, hhttp,
        ha, Except.isOk, Except.toBool]

/-- Claim C10: builder_https constructs the TLS-capable default client, yet
stores the plain HTTP scheme; every service minted from the builder forwards
its requests with scheme http. -/
theorem c10_builder_https_uses_http_scheme (B : Type) (a : Str)
    (h : validAuthority a = true) :
    ∃ b : Builder B, builder_https B a = .ok b ∧
      b.scheme = Scheme.HTTP ∧
      b.scheme ≠ Scheme.HTTPS ∧
      b.client.connector = (client.https_default B).connector ∧
      ∀ (rw : Str → Str) (req : Request B) (fut : ResponseFuture B),
        ((b.build rw).call req).inner = .ok fut →
        fut.reqSent.uri.scheme = some Scheme.HTTP := by
  have hhttp : validScheme Scheme.HTTP = true := by decide
  refine ⟨{ client := client.https_default B, scheme := Scheme.HTTP,
            authority := a }, ?_, rfl, show Scheme.HTTP ≠ Scheme.HTTPS by decide,
          rfl, ?_⟩
  · simp [builder_https, builder, Scheme.tryFrom, Authority.tryFrom, hhttp, h]
  · intro rw req fut hfut
    simp only [Builder.build, ReusedService.call, RevProxyFuture.new] at hfut
    cases hre : rewriteUri rw req Scheme.HTTP a with
    | error e => rw [hre] at hfut; simp at hfut
    | ok req2 =>
      rw [hre] at hfut
      simp only [Except.ok.injEq] at hfut
      have hsch := (rewriteUri_ok_parts hre).2.2.2.2.1
      rw [← hfut]
      exact hsch

/-- Witness for C10 at a concrete valid authority. -/
theorem c10_builder_https_uses_http_scheme_witness :
    ∃ b : Builder Unit, builder_https Unit "example.com:1234".toList = .ok b ∧
      b.scheme = Scheme.HTTP ∧
      b.scheme ≠ Scheme.HTTPS ∧
      b.client.connector = (client.https_default Unit).connector ∧
      ∀ (rw : Str → Str) (req : Request Unit) (fut : ResponseFuture Unit),
        ((b.build rw).call req).inner = .ok fut →
        fut.reqSent.uri.scheme = some Scheme.HTTP :=
  c10_builder_https_uses_http_scheme Unit "example.com:1234".toList (by decide)

end RevProxy
